import Mathlib

/-!
Verification of the LaTeX compiler worker (src/latex-compiler/worker.py).

The worker is a directory-polling job runner.  We give a shallow embedding:
the project directory is a flat association list of file names to file data,
a job descriptor is a record of optional string fields (the result of
`json.load` + `dict.get`), the compiler subprocess is an oracle (its output
lines, exit code, and the files present in the project directory after it
exits), and the asynchronous cancellation marker is a schedule: the index of
the first read-loop check at which the marker file exists.  Wall-clock
timestamps are abstracted to natural-number clock readings.

Each Python function of the worker is translated to a Lean function:
  pstem / psuffix          pathlib.PurePath.stem / .suffix
  stemGlobMatch            Path.glob with the pattern stem followed by dot-star
  compileLatex             LatexCompilerWorker._compile_latex
  processJob               LatexCompilerWorker._process_job
  processPendingJobs       LatexCompilerWorker._process_pending_jobs
  runWorker                LatexCompilerWorker.run
The outcome records keep the full history of status writes and log appends
so that theorems can speak about intermediate records.
-/

namespace LatexWorker

/-- A file's observable data: its byte content and its modification time.
`shutil.copy2` preserves both; a plain write would refresh the mtime. -/
structure FileData where
  content : String
  mtime : Nat
deriving DecidableEq, Repr

/-- A flat directory: file names paired with file data, in enumeration order
(the order `Path.glob` and `os.scandir` yield entries). -/
abbrev Dir := List (String × FileData)

/-- Membership test for a file name in a directory (`Path.exists`). -/
def existsFile (d : Dir) (name : String) : Bool :=
  d.any (fun p => p.1 == name)

/-- Look up a file's data by name (first entry wins, as in a real directory
where names are unique). -/
def lookupFile (d : Dir) (name : String) : Option FileData :=
  (d.find? (fun p => p.1 == name)).map (fun p => p.2)

/-- Write `fd` under `name`: overwrite in place if present, else append.
Models `shutil.copy2(src, dst)` for the destination entry. -/
def setFile (d : Dir) (name : String) (fd : FileData) : Dir :=
  if existsFile d name then
    d.map (fun p => if p.1 == name then (name, fd) else p)
  else
    d ++ [(name, fd)]

/-- Index of the last dot character in a list of characters, if any
(Python `str.rfind` restricted to the dot, with -1 mapped to `none`). -/
def lastDotIdx (cs : List Char) : Option Nat :=
  match cs.reverse.findIdx? (fun c => c == '.') with
  | none => none
  | some j => some (cs.length - 1 - j)

/-- `pathlib.PurePath.suffix` on a single path component: the last extension,
empty when the only dot is leading or trailing or there is none. -/
def psuffix (s : String) : String :=
  let cs := s.toList
  match lastDotIdx cs with
  | none => ""
  | some i => if 0 < i ∧ i < cs.length - 1 then String.mk (cs.drop i) else ""

/-- `pathlib.PurePath.stem` on a single path component: the name with its
last extension removed. -/
def pstem (s : String) : String :=
  let cs := s.toList
  match lastDotIdx cs with
  | none => s
  | some i => if 0 < i ∧ i < cs.length - 1 then String.mk (cs.take i) else s

/-- Last path component of a path string (`PurePath.name` for the purposes
of `stem`): the characters after the last slash. -/
def lastComp (s : String) : String :=
  let cs := s.toList
  match cs.reverse.findIdx? (fun c => c == '/') with
  | none => s
  | some j => String.mk (cs.drop (cs.length - j))

/-- `Path(entryFile).stem` as used in `_compile_latex`. -/
def pathStem (s : String) : String :=
  pstem (lastComp s)

/-- Whether a file name matches the glob pattern built from `stem` followed
by a dot and a star, as in `project_dir.glob(f"{stem}.*")`: the star matches
any (possibly empty) run of characters, so the pattern accepts exactly the
names having `stem` plus a dot as a prefix. -/
def stemGlobMatch (stem name : String) : Bool :=
  List.isPrefixOf (stem ++ ".").toList name.toList

/-- Job states appearing in status records. -/
inductive JState
  | running
  | success
  | failed
  | canceled
deriving DecidableEq, Repr

/-- A status record as written by `_write_status`.  Optional fields model
JSON keys that a given write does or does not include. -/
structure StatusRecord where
  jobId : String
  projectId : String
  state : JState
  revision : Option String
  startedAt : Option Nat
  finishedAt : Option Nat
deriving DecidableEq, Repr

/-- A parsed job descriptor: the five keys `_process_job` reads via
`dict.get`, each possibly absent. -/
structure JobData where
  jobId : Option String
  projectId : Option String
  entryFile : Option String
  engine : Option String
  revision : Option String
deriving DecidableEq, Repr

/-- Python truthiness of an optional string: `None` and the empty string are
falsy.  `_process_job` guards on `all([job_id, project_id])`. -/
def truthy : Option String → Bool
  | none => false
  | some s => s ≠ ""

/-- One subprocess invocation: the argument vector and the working directory
the process is started in. -/
structure Invocation where
  cmd : List String
  cwd : String
deriving DecidableEq, Repr

/-- The oracle for one run of the external compiler: whether `Popen`
succeeds at all (`spawnOk = false` models a spawn exception such as a
missing engine binary, with `spawnErr` the exception text), the stdout
lines the process produces, its exit code, and the contents of the project
directory once the process is finished. -/
structure SubprocessRun where
  spawnOk : Bool
  spawnErr : String
  lines : List String
  exitCode : Int
  filesAfter : Dir
deriving DecidableEq, Repr

/-- The argument vector `_compile_latex` builds. -/
def buildCmd (engine entryFile : String) : List String :=
  [engine, "-interaction=nonstopmode", "-halt-on-error",
   "-output-directory=.", entryFile]

/-- The line appended to the job log when the read loop observes the
cancellation marker. -/
def cancelLogLine : String := "\n--- COMPILATION CANCELLED ---\n"

/-- The read loop checks the cancellation marker once per iteration, before
each `readline`; with `n` output lines the loop performs checks `0..n` (the
last iteration reads end-of-file and breaks).  `cancelAt = some k` means the
marker file first exists at check `k`; the loop observes it only if `k ≤ n`,
otherwise the marker appears after the loop has already terminated. -/
def observedCancelIdx (cancelAt : Option Nat) (n : Nat) : Option Nat :=
  match cancelAt with
  | none => none
  | some k => if k ≤ n then some k else none

/-- Everything `_compile_latex` returns or leaves behind: the boolean result,
the lines appended to the job log, the final project directory contents, the
subprocess invocations performed, whether `process.terminate` was called,
whether the cancellation marker was observed by the read loop, and the trace
of `os.chdir` calls (empty when the function returns before changing
directory). -/
structure CompileResult where
  success : Bool
  logAppends : List String
  files : Dir
  invocations : List Invocation
  terminated : Bool
  cancelObserved : Bool
  cwdTrace : List String
deriving DecidableEq, Repr

/-- The working directory after the compile step, starting from `cwd0`: the
last `chdir` target, or `cwd0` when no `chdir` happened. -/
def CompileResult.endCwd (r : CompileResult) (cwd0 : String) : String :=
  r.cwdTrace.getLastD cwd0

/-- `LatexCompilerWorker._compile_latex`.

Paths, in source order: entry file missing (log a not-found line, return
False, no chdir); otherwise chdir to the project directory and, under
try/finally restoring `cwd0`: spawn failure (caught by the generic except,
log the error, False); marker observed at some read-loop check (terminate
the process, log the cancellation line, False); normal loop exit (log all
output and the return-code line, then decide success solely by globbing the
entry stem for a `.pdf` among the files left in the project directory,
copying it to `output.pdf` via `copy2` when it is elsewhere). -/
def compileLatex (projectDir cwd0 entryFile engine : String)
    (files0 : Dir) (run : SubprocessRun) (cancelAt : Option Nat) :
    CompileResult :=
  if existsFile files0 entryFile then
    let cmd := buildCmd engine entryFile
    let runningLine := "Running: " ++ " ".intercalate cmd ++ "\n\n"
    if run.spawnOk then
      let inv : Invocation := { cmd := cmd, cwd := projectDir }
      let n := run.lines.length
      match observedCancelIdx cancelAt n with
      | some k =>
          { success := false
            logAppends := [runningLine] ++ run.lines.take k ++ [cancelLogLine]
            files := run.filesAfter
            invocations := [inv]
            terminated := true
            cancelObserved := true
            cwdTrace := [projectDir, cwd0] }
      | none =>
          let rcLine :=
            "\nCompilation finished with return code: "
              ++ toString run.exitCode ++ "\n"
          match (run.filesAfter.filter
                   (fun f => stemGlobMatch (pathStem entryFile) f.1)).find?
                  (fun f => psuffix f.1 == ".pdf") with
          | some gp =>
              let files1 :=
                if gp.1 = "output.pdf" then run.filesAfter
                else setFile run.filesAfter "output.pdf" gp.2
              { success := true
                logAppends := [runningLine] ++ run.lines ++ [rcLine,
                  "PDF generated: output.pdf ("
                    ++ toString gp.2.content.length ++ " bytes)\n"]
                files := files1
                invocations := [inv]
                terminated := false
                cancelObserved := false
                cwdTrace := [projectDir, cwd0] }
          | none =>
              { success := false
                logAppends := [runningLine] ++ run.lines ++ [rcLine,
                  "ERROR: No PDF output generated\n"]
                files := run.filesAfter
                invocations := [inv]
                terminated := false
                cancelObserved := false
                cwdTrace := [projectDir, cwd0] }
    else
      { success := false
        logAppends := ["Running: " ++ " ".intercalate cmd ++ "\n\n",
          "ERROR: Compilation failed: " ++ run.spawnErr ++ "\n"]
        files := files0
        invocations := []
        terminated := false
        cancelObserved := false
        cwdTrace := [projectDir, cwd0] }
  else
    { success := false
      logAppends := ["ERROR: Entry file " ++ entryFile ++ " not found\n"]
      files := files0
      invocations := []
      terminated := false
      cancelObserved := false
      cwdTrace := [] }

/-- The mutable project-level state a job touches: the project directory,
the names in `compile/queue`, and the names in `compile/working`.  Status
and log files are reported through the job outcome, which records every
write (the file on disk is the last write). -/
structure ProjectState where
  files : Dir
  queue : List String
  working : List String
deriving DecidableEq, Repr

/-- The environment of one `_process_job` call: whether the cancellation
marker exists at the pre-claim check, the schedule of its appearance during
the read loop, the subprocess oracle, the two wall-clock readings the job
takes (`started_at` and `finished_at`), the worker's current directory, and
the project directory path. -/
structure Env where
  preCancel : Bool
  cancelAt : Option Nat
  run : SubprocessRun
  now0 : Nat
  now1 : Nat
  cwd0 : String
  projectDirPath : String
deriving DecidableEq, Repr

/-- Everything observable about one `_process_job` call: the resulting
queue, working and project-directory contents, the sequence of status
records written for the job (in order), whether the log file was opened in
truncating mode and the lines written to it, whether the cancellation
marker was observed and whether `cancel_file.unlink` was executed, the
subprocess invocations, and the worker's directory afterwards. -/
structure JobOutcome where
  queue : List String
  working : List String
  files : Dir
  statusWrites : List StatusRecord
  logTruncated : Bool
  logWrites : List String
  cancelObserved : Bool
  cancelUnlinked : Bool
  terminated : Bool
  invocations : List Invocation
  finalCwd : String
deriving DecidableEq, Repr

/-- The status file's content after the job: the last status write. -/
def JobOutcome.finalStatus (oc : JobOutcome) : Option StatusRecord :=
  oc.statusWrites.getLast?

/-- The header `_process_job` writes when it opens the log file (mode w). -/
def logHeader (startedAt : Nat) (jobId projectId engine entryFile : String) :
    List String :=
  ["LaTeX compilation started at " ++ toString startedAt ++ "\n",
   "Job ID: " ++ jobId ++ "\n",
   "Project: " ++ projectId ++ "\n",
   "Engine: " ++ engine ++ "\n",
   "Entry file: " ++ entryFile ++ "\n\n"]

/-- Outcome of a path that deletes the descriptor and does nothing else
(unreadable JSON, or a descriptor with falsy `jobId` or `projectId`). -/
def discardOutcome (jobFileName : String) (st : ProjectState) (env : Env) :
    JobOutcome :=
  { queue := st.queue.filter (fun n => n != jobFileName)
    working := st.working
    files := st.files
    statusWrites := []
    logTruncated := false
    logWrites := []
    cancelObserved := false
    cancelUnlinked := false
    terminated := false
    invocations := []
    finalCwd := env.cwd0 }

/-- `LatexCompilerWorker._process_job` on the descriptor file named
`jobFileName` whose parse result is `content` (`none`: `json.load` raised).

Source order: read/parse (failure deletes the file and returns); extract
`jobId`, `projectId`, `entryFile` (default `main.tex`), `engine` (default
`pdflatex`); the falsy-field guard deletes the file and returns; the
pre-claim cancellation check writes a `canceled` status with only
`finishedAt`, deletes descriptor and marker, and returns; otherwise the
descriptor is moved to `working/`, a `running` status with `startedAt` and
`revision` is written, the log is created with a header, `_compile_latex`
runs, a terminal `success`/`failed` status is written with the same
`startedAt` and `revision` and a fresh `finishedAt`, and the working copy
is deleted. -/
def processJob (jobFileName : String) (content : Option JobData)
    (st : ProjectState) (env : Env) : JobOutcome :=
  match content with
  | none => discardOutcome jobFileName st env
  | some jd =>
    if truthy jd.jobId && truthy jd.projectId then
      let jobId := jd.jobId.getD ""
      let projectId := jd.projectId.getD ""
      let entryFile := jd.entryFile.getD "main.tex"
      let engine := jd.engine.getD "pdflatex"
      if env.preCancel then
        { queue := st.queue.filter (fun n => n != jobFileName)
          working := st.working
          files := st.files
          statusWrites := [{ jobId := jobId, projectId := projectId
                             state := JState.canceled, revision := none
                             startedAt := none
                             finishedAt := some env.now0 }]
          logTruncated := false
          logWrites := []
          cancelObserved := true
          cancelUnlinked := true
          terminated := false
          invocations := []
          finalCwd := env.cwd0 }
      else
        let startedAt := env.now0
        let revision := jd.revision.getD ""
        let res := compileLatex env.projectDirPath env.cwd0 entryFile engine
                     st.files env.run env.cancelAt
        let runningRec : StatusRecord :=
          { jobId := jobId, projectId := projectId, state := JState.running
            revision := some revision, startedAt := some startedAt
            finishedAt := none }
        let finalRec : StatusRecord :=
          { jobId := jobId, projectId := projectId
            state := if res.success then JState.success else JState.failed
            revision := some revision, startedAt := some startedAt
            finishedAt := some env.now1 }
        { queue := st.queue.filter (fun n => n != jobFileName)
          working := st.working.filter (fun n => n != jobFileName)
          files := res.files
          statusWrites := [runningRec, finalRec]
          logTruncated := true
          logWrites := logHeader startedAt jobId projectId engine entryFile
                         ++ res.logAppends
          cancelObserved := res.cancelObserved
          cancelUnlinked := false
          terminated := res.terminated
          invocations := res.invocations
          finalCwd := res.endCwd env.cwd0 }
    else
      discardOutcome jobFileName st env

/-- Apply a job outcome's file-system effects back to the project state. -/
def applyOutcome (oc : JobOutcome) : ProjectState :=
  { files := oc.files, queue := oc.queue, working := oc.working }

/-- One descriptor in a scan: either it is processed normally with its
parse result and environment, or handling it raises an exception somewhere
that the scan's per-job `except` block catches. -/
inductive JobStep
  | ok (name : String) (content : Option JobData) (env : Env)
  | raises

/-- `LatexCompilerWorker._process_pending_jobs`, restricted to one project:
fold over the enumerated descriptor files, processing each inside a
per-job try/except, so a raising step is logged and skipped while the scan
continues.  Returns the final state and the outcomes in order. -/
def processPendingJobs : List JobStep → ProjectState →
    ProjectState × List JobOutcome
  | [], st => (st, [])
  | JobStep.raises :: rest, st => processPendingJobs rest st
  | JobStep.ok name content env :: rest, st =>
      let oc := processJob name content st env
      let r := processPendingJobs rest (applyOutcome oc)
      (r.1, oc :: r.2)

/-- `LatexCompilerWorker.run`: one entry per polling cycle; `none` models a
cycle in which `_process_pending_jobs` itself raises (caught by the main
loop's try/except, which sleeps and continues). -/
def runWorker : List (Option (List JobStep)) → ProjectState →
    ProjectState × List JobOutcome
  | [], st => (st, [])
  | none :: cs, st => runWorker cs st
  | some steps :: cs, st =>
      let r := processPendingJobs steps st
      let r2 := runWorker cs r.1
      (r2.1, r.2 ++ r2.2)

/-! ## Concrete fixtures

Small concrete inputs used to evaluate the model (witnesses of the
theorems below, and counterexamples). -/

/-- A small source file. -/
def fdTex : FileData := { content := "tex", mtime := 5 }

/-- A compiled artifact. -/
def fdPdf : FileData := { content := "PDFBYTES", mtime := 9 }

/-- A project whose directory holds `main.tex` and whose queue holds one
descriptor file. -/
def stW : ProjectState :=
  { files := [("main.tex", fdTex)], queue := ["j1.json"], working := [] }

/-- A project whose directory is empty (the entry file is missing). -/
def stEmpty : ProjectState :=
  { files := [], queue := ["j1.json"], working := [] }

/-- A subprocess run that produces one output line and leaves `main.tex`,
`main.log` and `main.pdf` in the project directory. -/
def runOk : SubprocessRun :=
  { spawnOk := true, spawnErr := "", lines := ["l1\n"], exitCode := 0,
    filesAfter := [("main.tex", fdTex), ("main.log", fdTex),
                   ("main.pdf", fdPdf)] }

/-- A subprocess run with no output lines at all (its single read-loop
iteration reads end-of-file immediately). -/
def runSilent : SubprocessRun :=
  { spawnOk := true, spawnErr := "", lines := [], exitCode := 0,
    filesAfter := [("main.tex", fdTex), ("main.pdf", fdPdf)] }

/-- A well-formed descriptor. -/
def jdOk : JobData :=
  { jobId := some "j1", projectId := some "p1", entryFile := none,
    engine := none, revision := some "r7" }

/-- A descriptor missing its `jobId`. -/
def jdNoJob : JobData :=
  { jobId := none, projectId := some "p1", entryFile := none,
    engine := none, revision := none }

/-- Environment with no cancellation at all. -/
def envPlain : Env :=
  { preCancel := false, cancelAt := none, run := runOk, now0 := 10,
    now1 := 20, cwd0 := "/app", projectDirPath := "/work/latex_files/p1" }

/-- Environment whose cancellation marker already exists at job pickup. -/
def envPre : Env :=
  { envPlain with preCancel := true }

/-- Environment whose cancellation marker appears at the very first
read-loop check. -/
def envCancel0 : Env :=
  { envPlain with cancelAt := some 0 }

/-- Environment whose cancellation marker appears at check slot 2 of a run
whose read loop performs only check 0: the marker is created after the
subprocess has started but only once the read loop is already done. -/
def envLate : Env :=
  { envPlain with cancelAt := some 2, run := runSilent }

/-! ## Helper lemmas -/

theorem lookupFile_setFile (d : Dir) (name : String) (fd : FileData) :
    lookupFile (setFile d name fd) name = some fd := by
  unfold lookupFile setFile existsFile
  induction d with
  | nil => simp
  | cons p d ih =>
      by_cases h : p.1 = name
      · simp [h, List.find?]
      · rcases hrest : d.any (fun p => p.1 == name) with _ | _
        · simpa [h, List.find?, hrest] using ih
        · simpa [h, List.find?, hrest] using ih

theorem getLast?_pair {α : Type} (a b : α) : [a, b].getLast? = some b := rfl

/-- A found entry of the stem-glob filter gives a witness for the
spec-side existential, and conversely. -/
theorem filtered_pdf_found_iff (files : Dir) (stem : String) :
    ((files.filter (fun f => stemGlobMatch stem f.1)).find?
        (fun f => psuffix f.1 == ".pdf")).isSome = true ↔
      ∃ f ∈ files, stemGlobMatch stem f.1 = true ∧ psuffix f.1 = ".pdf" := by
  rw [List.find?_isSome]
  constructor
  · rintro ⟨x, hx, hp⟩
    rcases List.mem_filter.mp hx with ⟨hmem, hq⟩
    exact ⟨x, hmem, hq, by simpa using hp⟩
  · rintro ⟨x, hmem, hq, hp⟩
    exact ⟨x, List.mem_filter.mpr ⟨hmem, hq⟩, by simpa using hp⟩

/-- An `if` over the two terminal states always lands in one of them. -/
theorem ite_terminal_cases (b : Bool) :
    (if b then JState.success else JState.failed) = JState.success
    ∨ (if b then JState.success else JState.failed) = JState.failed := by
  cases b <;> simp

/-- `_process_job` on a valid descriptor with no pre-claim cancellation:
the whole outcome, expressed through `compileLatex`. -/
theorem processJob_normal (name : String) (jd : JobData)
    (st : ProjectState) (env : Env)
    (hvalid : (truthy jd.jobId && truthy jd.projectId) = true)
    (hpre : env.preCancel = false) :
    processJob name (some jd) st env =
      { queue := st.queue.filter (fun n => n != name)
        working := st.working.filter (fun n => n != name)
        files := (compileLatex env.projectDirPath env.cwd0
                    (jd.entryFile.getD "main.tex") (jd.engine.getD "pdflatex")
                    st.files env.run env.cancelAt).files
        statusWrites :=
          [{ jobId := jd.jobId.getD "", projectId := jd.projectId.getD ""
             state := JState.running, revision := some (jd.revision.getD "")
             startedAt := some env.now0, finishedAt := none },
           { jobId := jd.jobId.getD "", projectId := jd.projectId.getD ""
             state := if (compileLatex env.projectDirPath env.cwd0
                            (jd.entryFile.getD "main.tex")
                            (jd.engine.getD "pdflatex")
                            st.files env.run env.cancelAt).success
                      then JState.success else JState.failed
             revision := some (jd.revision.getD "")
             startedAt := some env.now0, finishedAt := some env.now1 }]
        logTruncated := true
        logWrites :=
          logHeader env.now0 (jd.jobId.getD "") (jd.projectId.getD "")
              (jd.engine.getD "pdflatex") (jd.entryFile.getD "main.tex")
            ++ (compileLatex env.projectDirPath env.cwd0
                  (jd.entryFile.getD "main.tex") (jd.engine.getD "pdflatex")
                  st.files env.run env.cancelAt).logAppends
        cancelObserved := (compileLatex env.projectDirPath env.cwd0
                             (jd.entryFile.getD "main.tex")
                             (jd.engine.getD "pdflatex")
                             st.files env.run env.cancelAt).cancelObserved
        cancelUnlinked := false
        terminated := (compileLatex env.projectDirPath env.cwd0
                         (jd.entryFile.getD "main.tex")
                         (jd.engine.getD "pdflatex")
                         st.files env.run env.cancelAt).terminated
        invocations := (compileLatex env.projectDirPath env.cwd0
                          (jd.entryFile.getD "main.tex")
                          (jd.engine.getD "pdflatex")
                          st.files env.run env.cancelAt).invocations
        finalCwd := (compileLatex env.projectDirPath env.cwd0
                       (jd.entryFile.getD "main.tex")
                       (jd.engine.getD "pdflatex")
                       st.files env.run env.cancelAt).endCwd env.cwd0 } := by
  simp [processJob, hvalid, hpre]

/-- With no cancellation during the read loop, `_compile_latex` succeeds
exactly when a file whose name matches the entry stem glob and whose
suffix is `.pdf` is left in the project directory. -/
theorem compileLatex_success_iff (pd cwd0 entryFile engine : String)
    (files0 : Dir) (run : SubprocessRun)
    (hex : existsFile files0 entryFile = true)
    (hsp : run.spawnOk = true) :
    (compileLatex pd cwd0 entryFile engine files0 run none).success = true ↔
      ∃ f ∈ run.filesAfter,
        stemGlobMatch (pathStem entryFile) f.1 = true ∧ psuffix f.1 = ".pdf" := by
  rw [← filtered_pdf_found_iff]
  rcases hfd : (run.filesAfter.filter
      (fun f => stemGlobMatch (pathStem entryFile) f.1)).find?
      (fun f => psuffix f.1 == ".pdf") with _ | gp
  · simp [compileLatex, hex, hsp, observedCancelIdx, hfd]
  · simp [compileLatex, hex, hsp, observedCancelIdx, hfd]

/-- The subprocess exit code has no influence on the boolean result of
`_compile_latex`. -/
theorem compileLatex_exitCode_irrelevant (pd cwd0 entryFile engine : String)
    (files0 : Dir) (run : SubprocessRun) (cancelAt : Option Nat) (e : Int) :
    (compileLatex pd cwd0 entryFile engine files0
        { run with exitCode := e } cancelAt).success =
    (compileLatex pd cwd0 entryFile engine files0 run cancelAt).success := by
  by_cases hex : existsFile files0 entryFile
  · by_cases hsp : run.spawnOk
    · rcases hoc : observedCancelIdx cancelAt run.lines.length with _ | k
      · rcases hfd : (run.filesAfter.filter
            (fun f => stemGlobMatch (pathStem entryFile) f.1)).find?
            (fun f => psuffix f.1 == ".pdf") with _ | gp
        · simp [compileLatex, hex, hsp, hoc, hfd]
        · simp [compileLatex, hex, hsp, hoc, hfd]
      · simp [compileLatex, hex, hsp, hoc]
    · simp [compileLatex, hex, hsp]
  · simp [compileLatex, hex]

/-- When the found PDF is not already the canonical `output.pdf`, the
compile step copies its data (content and metadata) to `output.pdf`. -/
theorem compileLatex_copies_pdf (pd cwd0 entryFile engine : String)
    (files0 : Dir) (run : SubprocessRun) (gp : String × FileData)
    (hex : existsFile files0 entryFile = true)
    (hsp : run.spawnOk = true)
    (hfd : (run.filesAfter.filter
        (fun f => stemGlobMatch (pathStem entryFile) f.1)).find?
        (fun f => psuffix f.1 == ".pdf") = some gp)
    (hne : gp.1 ≠ "output.pdf") :
    (compileLatex pd cwd0 entryFile engine files0 run none).files =
      setFile run.filesAfter "output.pdf" gp.2 := by
  simp [compileLatex, hex, hsp, observedCancelIdx, hfd, hne]

/-- When the read loop observes the marker at check `k`, `_compile_latex`
terminates the process, logs the cancellation line after the first `k`
output lines, and returns failure. -/
theorem compileLatex_cancel_observed (pd cwd0 entryFile engine : String)
    (files0 : Dir) (run : SubprocessRun) (k : Nat)
    (hex : existsFile files0 entryFile = true)
    (hsp : run.spawnOk = true)
    (hk : k ≤ run.lines.length) :
    compileLatex pd cwd0 entryFile engine files0 run (some k) =
      { success := false
        logAppends :=
          ["Running: " ++ " ".intercalate (buildCmd engine entryFile)
             ++ "\n\n"] ++ run.lines.take k ++ [cancelLogLine]
        files := run.filesAfter
        invocations := [{ cmd := buildCmd engine entryFile, cwd := pd }]
        terminated := true
        cancelObserved := true
        cwdTrace := [pd, cwd0] } := by
  simp [compileLatex, hex, hsp, observedCancelIdx, hk]

/-- A descriptor whose handling raises is skipped and the scan continues
with the remaining descriptors, unchanged. -/
theorem processPendingJobs_raises_middle (pre post : List JobStep)
    (st : ProjectState) :
    processPendingJobs (pre ++ JobStep.raises :: post) st =
      processPendingJobs (pre ++ post) st := by
  induction pre generalizing st with
  | nil => rfl
  | cons s rest ih =>
      cases s with
      | raises => simpa [processPendingJobs] using ih st
      | ok n c e => simp [processPendingJobs, ih]

/-! ## Claim theorems -/

/-- C2: for every valid descriptor whose cancellation marker exists at the
moment it is picked up, the worker writes a single status record with state
`canceled`, `finishedAt` the current time and no `startedAt` (and no
`revision`), deletes the descriptor from the queue and unlinks the marker,
and performs no subprocess invocation. -/
theorem c2_precancel_canceled (name : String) (jd : JobData)
    (st : ProjectState) (env : Env)
    (hvalid : (truthy jd.jobId && truthy jd.projectId) = true)
    (hpre : env.preCancel = true) :
    (processJob name (some jd) st env).statusWrites =
      [{ jobId := jd.jobId.getD "", projectId := jd.projectId.getD ""
         state := JState.canceled, revision := none, startedAt := none
         finishedAt := some env.now0 }]
    ∧ (processJob name (some jd) st env).queue =
        st.queue.filter (fun n => n != name)
    ∧ (processJob name (some jd) st env).cancelUnlinked = true
    ∧ (processJob name (some jd) st env).invocations = [] := by
  simp [processJob, hvalid, hpre]

/-- C5: a descriptor that parses but has a falsy `jobId` or `projectId` is
deleted from the queue; no status is written, the log is neither created
nor written, nothing is claimed into `working/`, and no subprocess runs. -/
theorem c5_invalid_descriptor_discarded (name : String) (jd : JobData)
    (st : ProjectState) (env : Env)
    (hbad : (truthy jd.jobId && truthy jd.projectId) = false) :
    processJob name (some jd) st env = discardOutcome name st env
    ∧ (processJob name (some jd) st env).queue =
        st.queue.filter (fun n => n != name)
    ∧ (processJob name (some jd) st env).statusWrites = []
    ∧ (processJob name (some jd) st env).logTruncated = false
    ∧ (processJob name (some jd) st env).logWrites = []
    ∧ (processJob name (some jd) st env).working = st.working
    ∧ (processJob name (some jd) st env).invocations = [] := by
  simp [processJob, hbad, discardOutcome]

/-- C10: a queue file whose content cannot be read or parsed as JSON is
deleted and produces no status record and no log — the same silent-discard
outcome as a parsed descriptor missing `jobId` or `projectId`. -/
theorem c10_unreadable_descriptor_discarded (name : String) (jd : JobData)
    (st : ProjectState) (env : Env)
    (hbad : (truthy jd.jobId && truthy jd.projectId) = false) :
    processJob name none st env = processJob name (some jd) st env
    ∧ (processJob name none st env).queue =
        st.queue.filter (fun n => n != name)
    ∧ (processJob name none st env).statusWrites = []
    ∧ (processJob name none st env).logTruncated = false
    ∧ (processJob name none st env).logWrites = []
    ∧ (processJob name none st env).working = st.working
    ∧ (processJob name none st env).invocations = [] := by
  simp [processJob, hbad, discardOutcome]

/-- C7: a claimed job whose entry file does not exist in the project
directory performs no subprocess invocation, appends an explicit not-found
line to the job log, and ends with a `failed` status. -/
theorem c7_missing_entry_failed (name : String) (jd : JobData)
    (st : ProjectState) (env : Env)
    (hvalid : (truthy jd.jobId && truthy jd.projectId) = true)
    (hpre : env.preCancel = false)
    (hmiss : existsFile st.files (jd.entryFile.getD "main.tex") = false) :
    (processJob name (some jd) st env).invocations = []
    ∧ ("ERROR: Entry file " ++ jd.entryFile.getD "main.tex"
         ++ " not found\n") ∈ (processJob name (some jd) st env).logWrites
    ∧ (processJob name (some jd) st env).finalStatus.map
        (fun r => r.state) = some JState.failed := by
  simp [processJob, hvalid, hpre, compileLatex, hmiss,
    JobOutcome.finalStatus, getLast?_pair]

/-- C1: for a claimed job whose entry file exists (and whose subprocess
spawns and is never cancelled mid-run), the final status is `success` iff a
file matching the entry stem glob with suffix `.pdf` is left in the project
directory after the subprocess exits; the exit code plays no role in this
determination; and a found PDF not already at `output.pdf` is copied there
with its data and metadata preserved. -/
theorem c1_success_iff_pdf_artifact (name : String) (jd : JobData)
    (st : ProjectState) (env : Env)
    (hvalid : (truthy jd.jobId && truthy jd.projectId) = true)
    (hpre : env.preCancel = false)
    (hex : existsFile st.files (jd.entryFile.getD "main.tex") = true)
    (hsp : env.run.spawnOk = true)
    (hnc : env.cancelAt = none) :
    ((processJob name (some jd) st env).finalStatus.map (fun r => r.state)
        = some JState.success ↔
      ∃ f ∈ env.run.filesAfter,
        stemGlobMatch (pathStem (jd.entryFile.getD "main.tex")) f.1 = true
          ∧ psuffix f.1 = ".pdf")
    ∧ (∀ e : Int,
        (processJob name (some jd) st
            { env with run := { env.run with exitCode := e } }).finalStatus.map
            (fun r => r.state)
          = (processJob name (some jd) st env).finalStatus.map
              (fun r => r.state))
    ∧ (∀ gp : String × FileData,
        (env.run.filesAfter.filter
            (fun f => stemGlobMatch (pathStem (jd.entryFile.getD "main.tex"))
              f.1)).find? (fun f => psuffix f.1 == ".pdf") = some gp →
        gp.1 ≠ "output.pdf" →
        lookupFile (processJob name (some jd) st env).files "output.pdf"
          = some gp.2) := by
  refine ⟨?_, ?_, ?_⟩
  · rw [processJob_normal name jd st env hvalid hpre, hnc]
    simp only [JobOutcome.finalStatus, getLast?_pair, Option.map_some]
    rw [← compileLatex_success_iff env.projectDirPath env.cwd0
          (jd.entryFile.getD "main.tex") (jd.engine.getD "pdflatex")
          st.files env.run hex hsp]
    cases hcs : (compileLatex env.projectDirPath env.cwd0
        (jd.entryFile.getD "main.tex") (jd.engine.getD "pdflatex")
        st.files env.run none).success <;> simp [hcs]
  · intro e
    rw [processJob_normal name jd st env hvalid hpre,
      processJob_normal name jd st
        { env with run := { env.run with exitCode := e } } hvalid hpre]
    simp only [JobOutcome.finalStatus, getLast?_pair, Option.map_some]
    rw [compileLatex_exitCode_irrelevant]
  · intro gp hfd hne
    rw [processJob_normal name jd st env hvalid hpre, hnc]
    simp only []
    rw [compileLatex_copies_pdf env.projectDirPath env.cwd0
          (jd.entryFile.getD "main.tex") (jd.engine.getD "pdflatex")
          st.files env.run gp hex hsp hfd hne]
    exact lookupFile_setFile env.run.filesAfter "output.pdf" gp.2

/-- C1 witness: the theorem applied to the concrete fixture job. -/
theorem c1_witness :
    ((processJob "j1.json" (some jdOk) stW envPlain).finalStatus.map
        (fun r => r.state) = some JState.success ↔
      ∃ f ∈ envPlain.run.filesAfter,
        stemGlobMatch (pathStem (jdOk.entryFile.getD "main.tex")) f.1 = true
          ∧ psuffix f.1 = ".pdf")
    ∧ (∀ e : Int,
        (processJob "j1.json" (some jdOk) stW
            { envPlain with
                run := { envPlain.run with exitCode := e } }).finalStatus.map
            (fun r => r.state)
          = (processJob "j1.json" (some jdOk) stW envPlain).finalStatus.map
              (fun r => r.state))
    ∧ (∀ gp : String × FileData,
        (envPlain.run.filesAfter.filter
            (fun f => stemGlobMatch (pathStem (jdOk.entryFile.getD "main.tex"))
              f.1)).find? (fun f => psuffix f.1 == ".pdf") = some gp →
        gp.1 ≠ "output.pdf" →
        lookupFile (processJob "j1.json" (some jdOk) stW envPlain).files
          "output.pdf" = some gp.2) :=
  c1_success_iff_pdf_artifact "j1.json" jdOk stW envPlain (by decide) rfl
    (by decide) rfl rfl

/-- C2 witness: the theorem applied to the concrete fixture job whose
marker exists at pickup. -/
theorem c2_witness :
    (processJob "j1.json" (some jdOk) stW envPre).statusWrites =
      [{ jobId := jdOk.jobId.getD "", projectId := jdOk.projectId.getD ""
         state := JState.canceled, revision := none, startedAt := none
         finishedAt := some envPre.now0 }]
    ∧ (processJob "j1.json" (some jdOk) stW envPre).queue =
        stW.queue.filter (fun n => n != "j1.json")
    ∧ (processJob "j1.json" (some jdOk) stW envPre).cancelUnlinked = true
    ∧ (processJob "j1.json" (some jdOk) stW envPre).invocations = [] :=
  c2_precancel_canceled "j1.json" jdOk stW envPre (by decide) rfl

/-- C3 counterexample: the cancellation marker appears at check slot 2 —
after the subprocess has started, but the silent run's read loop only ever
performs check 0 — so the loop never observes it, nothing is terminated, no
cancellation line is logged, and the job ends in `success`. -/
theorem c3_late_marker_counterexample :
    envLate.preCancel = false
    ∧ envLate.cancelAt = some 2
    ∧ envLate.run.lines.length = 0
    ∧ (processJob "j1.json" (some jdOk) stW envLate).cancelObserved = false
    ∧ (processJob "j1.json" (some jdOk) stW envLate).terminated = false
    ∧ cancelLogLine ∉ (processJob "j1.json" (some jdOk) stW envLate).logWrites
    ∧ (processJob "j1.json" (some jdOk) stW envLate).finalStatus.map
        (fun r => r.state) = some JState.success := by
  decide

/-- C3 (amended): for every job whose cancellation marker appears at or
before the read loop's final marker check, the loop observes it, the
subprocess is terminated, a cancellation line is appended to the job log,
and the final status is `failed` (in particular, never `success`). -/
theorem c3_cancel_during_loop (name : String) (jd : JobData)
    (st : ProjectState) (env : Env) (k : Nat)
    (hvalid : (truthy jd.jobId && truthy jd.projectId) = true)
    (hpre : env.preCancel = false)
    (hex : existsFile st.files (jd.entryFile.getD "main.tex") = true)
    (hsp : env.run.spawnOk = true)
    (hca : env.cancelAt = some k)
    (hk : k ≤ env.run.lines.length) :
    (processJob name (some jd) st env).cancelObserved = true
    ∧ (processJob name (some jd) st env).terminated = true
    ∧ cancelLogLine ∈ (processJob name (some jd) st env).logWrites
    ∧ (processJob name (some jd) st env).finalStatus.map (fun r => r.state)
        = some JState.failed := by
  rw [processJob_normal name jd st env hvalid hpre, hca,
    compileLatex_cancel_observed env.projectDirPath env.cwd0
      (jd.entryFile.getD "main.tex") (jd.engine.getD "pdflatex")
      st.files env.run k hex hsp hk]
  refine ⟨rfl, rfl, ?_, ?_⟩
  · simp
  · simp [JobOutcome.finalStatus, getLast?_pair]

/-- C3 witness: the amended theorem applied to the fixture whose marker
appears at the first read-loop check. -/
theorem c3_witness :
    (processJob "j1.json" (some jdOk) stW envCancel0).cancelObserved = true
    ∧ (processJob "j1.json" (some jdOk) stW envCancel0).terminated = true
    ∧ cancelLogLine ∈ (processJob "j1.json" (some jdOk) stW envCancel0).logWrites
    ∧ (processJob "j1.json" (some jdOk) stW envCancel0).finalStatus.map
        (fun r => r.state) = some JState.failed :=
  c3_cancel_during_loop "j1.json" jdOk stW envCancel0 0 (by decide) rfl
    (by decide) rfl rfl (by decide)

/-- C4 counterexample: a marker observed during the read loop is not
deleted (`cancel_file.unlink` runs only on the pre-claim path). -/
theorem c4_midrun_marker_not_deleted :
    (processJob "j1.json" (some jdOk) stW envCancel0).cancelObserved = true
    ∧ (processJob "j1.json" (some jdOk) stW envCancel0).cancelUnlinked
        = false := by
  decide

/-- C4 (amended): for every valid descriptor, the cancellation marker is
unlinked exactly on the pre-claim cancellation path: a marker observed
before the job is claimed is consumed, while a marker observed during the
read loop is never deleted. -/
theorem c4_marker_unlinked_iff_preclaim (name : String) (jd : JobData)
    (st : ProjectState) (env : Env)
    (hvalid : (truthy jd.jobId && truthy jd.projectId) = true) :
    (processJob name (some jd) st env).cancelUnlinked = env.preCancel
    ∧ (env.preCancel = true →
        (processJob name (some jd) st env).cancelObserved = true) := by
  by_cases hpre : env.preCancel
  · simp [processJob, hvalid, hpre]
  · simp only [Bool.not_eq_true] at hpre
    rw [processJob_normal name jd st env hvalid hpre]
    simp [hpre]

/-- C4 witness: the amended theorem applied to the pre-claim fixture. -/
theorem c4_witness :
    (processJob "j1.json" (some jdOk) stW envPre).cancelUnlinked
        = envPre.preCancel
    ∧ (envPre.preCancel = true →
        (processJob "j1.json" (some jdOk) stW envPre).cancelObserved
          = true) :=
  c4_marker_unlinked_iff_preclaim "j1.json" jdOk stW envPre (by decide)

/-- C5 witness: the theorem applied to a descriptor missing `jobId`. -/
theorem c5_witness :
    processJob "j1.json" (some jdNoJob) stW envPlain =
      discardOutcome "j1.json" stW envPlain
    ∧ (processJob "j1.json" (some jdNoJob) stW envPlain).queue =
        stW.queue.filter (fun n => n != "j1.json")
    ∧ (processJob "j1.json" (some jdNoJob) stW envPlain).statusWrites = []
    ∧ (processJob "j1.json" (some jdNoJob) stW envPlain).logTruncated = false
    ∧ (processJob "j1.json" (some jdNoJob) stW envPlain).logWrites = []
    ∧ (processJob "j1.json" (some jdNoJob) stW envPlain).working = stW.working
    ∧ (processJob "j1.json" (some jdNoJob) stW envPlain).invocations = [] :=
  c5_invalid_descriptor_discarded "j1.json" jdNoJob stW envPlain (by decide)

/-- C6: every claimed job that runs to completion ends with exactly two
status writes: a `running` record and a terminal record whose state is
`success` or `failed`, whose `finishedAt` is the finalization clock, and
whose `startedAt` and `revision` are the ones written in the running
record; the working copy of the descriptor is gone afterwards. -/
theorem c6_finalize_preserves_running_fields (name : String) (jd : JobData)
    (st : ProjectState) (env : Env)
    (hvalid : (truthy jd.jobId && truthy jd.projectId) = true)
    (hpre : env.preCancel = false) :
    ∃ r f : StatusRecord,
      (processJob name (some jd) st env).statusWrites = [r, f]
      ∧ r.state = JState.running
      ∧ (f.state = JState.success ∨ f.state = JState.failed)
      ∧ f.finishedAt = some env.now1
      ∧ f.startedAt = r.startedAt
      ∧ r.startedAt = some env.now0
      ∧ f.revision = r.revision
      ∧ (processJob name (some jd) st env).finalStatus = some f
      ∧ name ∉ (processJob name (some jd) st env).working := by
  rw [processJob_normal name jd st env hvalid hpre]
  refine ⟨_, _, rfl, rfl, ite_terminal_cases _, rfl, rfl, rfl, rfl, ?_, ?_⟩
  · simp [JobOutcome.finalStatus, getLast?_pair]
  · simp

/-- C6 witness: the theorem applied to the concrete fixture job. -/
theorem c6_witness :
    ∃ r f : StatusRecord,
      (processJob "j1.json" (some jdOk) stW envPlain).statusWrites = [r, f]
      ∧ r.state = JState.running
      ∧ (f.state = JState.success ∨ f.state = JState.failed)
      ∧ f.finishedAt = some envPlain.now1
      ∧ f.startedAt = r.startedAt
      ∧ r.startedAt = some envPlain.now0
      ∧ f.revision = r.revision
      ∧ (processJob "j1.json" (some jdOk) stW envPlain).finalStatus = some f
      ∧ "j1.json" ∉ (processJob "j1.json" (some jdOk) stW envPlain).working :=
  c6_finalize_preserves_running_fields "j1.json" jdOk stW envPlain
    (by decide) rfl

/-- C7 witness: the theorem applied to the fixture project with an empty
directory. -/
theorem c7_witness :
    (processJob "j1.json" (some jdOk) stEmpty envPlain).invocations = []
    ∧ ("ERROR: Entry file " ++ jdOk.entryFile.getD "main.tex"
         ++ " not found\n")
        ∈ (processJob "j1.json" (some jdOk) stEmpty envPlain).logWrites
    ∧ (processJob "j1.json" (some jdOk) stEmpty envPlain).finalStatus.map
        (fun r => r.state) = some JState.failed :=
  c7_missing_entry_failed "j1.json" jdOk stEmpty envPlain (by decide) rfl rfl

/-- C8: on every path of the compile step — entry file missing, spawn
failure, mid-run cancellation, success, no-PDF failure — each subprocess
invocation uses the project directory as its working directory, and the
worker's directory after the step equals the original one. -/
theorem c8_cwd_restored (projectDir cwd0 entryFile engine : String)
    (files0 : Dir) (run : SubprocessRun) (cancelAt : Option Nat) :
    (∀ inv ∈ (compileLatex projectDir cwd0 entryFile engine files0 run
        cancelAt).invocations, inv.cwd = projectDir)
    ∧ (compileLatex projectDir cwd0 entryFile engine files0 run
        cancelAt).endCwd cwd0 = cwd0 := by
  by_cases hex : existsFile files0 entryFile
  · by_cases hsp : run.spawnOk
    · rcases hoc : observedCancelIdx cancelAt run.lines.length with _ | k
      · rcases hfd : (run.filesAfter.filter
            (fun f => stemGlobMatch (pathStem entryFile) f.1)).find?
            (fun f => psuffix f.1 == ".pdf") with _ | gp
        · simp [compileLatex, hex, hsp, hoc, hfd, CompileResult.endCwd]
        · simp [compileLatex, hex, hsp, hoc, hfd, CompileResult.endCwd]
      · simp [compileLatex, hex, hsp, hoc, CompileResult.endCwd]
    · simp [compileLatex, hex, hsp, CompileResult.endCwd]
  · simp [compileLatex, hex, CompileResult.endCwd]

/-- C9: a descriptor whose processing raises is caught per job: the scan
handles the remaining descriptors exactly as if the bad one were absent,
and subsequent polling cycles run unchanged — a per-job failure never
terminates the worker. -/
theorem c9_per_job_exception_isolated (pre post : List JobStep)
    (cs : List (Option (List JobStep))) (st : ProjectState) :
    processPendingJobs (pre ++ JobStep.raises :: post) st =
        processPendingJobs (pre ++ post) st
    ∧ runWorker (some (pre ++ JobStep.raises :: post) :: cs) st =
        runWorker (some (pre ++ post) :: cs) st := by
  refine ⟨processPendingJobs_raises_middle pre post st, ?_⟩
  simp [runWorker, processPendingJobs_raises_middle]

/-- C10 witness: the theorem applied to an unreadable queue file, compared
with the fixture descriptor missing `jobId`. -/
theorem c10_witness :
    processJob "j1.json" none stW envPlain =
        processJob "j1.json" (some jdNoJob) stW envPlain
    ∧ (processJob "j1.json" none stW envPlain).queue =
        stW.queue.filter (fun n => n != "j1.json")
    ∧ (processJob "j1.json" none stW envPlain).statusWrites = []
    ∧ (processJob "j1.json" none stW envPlain).logTruncated = false
    ∧ (processJob "j1.json" none stW envPlain).logWrites = []
    ∧ (processJob "j1.json" none stW envPlain).working = stW.working
    ∧ (processJob "j1.json" none stW envPlain).invocations = [] :=
  c10_unreadable_descriptor_discarded "j1.json" jdNoJob stW envPlain
    (by decide)

end LatexWorker
